import Mathlib

namespace Adk

/-
Verification development for the adk-go telemetry / debug-trace subsystem.

Shallow embedding of:
  - internal/telemetry/telemetry.go  (span registry, annotators, safeSerialize)
  - cmd/restapi/services span exporter (APIServerSpanExporter.ExportSpans)
  - cmd/restapi/handlers/debug.go    (TraceDict handler, event-graph correlator)

Go conventions modelled explicitly:
  - nil pointers are Option; a nil-pointer dereference (Go panic) is `none`
    in an `Option`-valued result;
  - Go `map[string]K` is an association list built only through `mapSet`,
    whose lookup semantics (`mapGet`) match Go map indexing;
  - `json.Marshal` over Go `any` values is modelled by `jsonMarshal` over
    the `GoValue` tree, with `GoValue.chan` standing for the unmarshalable
    Go values (channels, functions), on which marshalling errors.
-/

/-- Model of a Go `any` value as handed to `json.Marshal`; `chan` stands for
the Go values (channels, functions) that `json.Marshal` rejects. -/
inductive GoValue : Type
  | null : GoValue
  | bool (b : Bool) : GoValue
  | num (q : Rat) : GoValue
  | str (s : String) : GoValue
  | arr (elems : List GoValue) : GoValue
  | obj (fields : List (String × GoValue)) : GoValue
  | chan : GoValue

/-- JSON string escaping for one character (model of Go encoding). -/
def escapeChar (c : Char) : String :=
  if c = '\"' then ("\\\"") else if c = '\\' then ("\\\\") else String.singleton c

/-- JSON string quoting. -/
def quoteString (s : String) : String :=
  ("\"") ++ String.join (s.data.map escapeChar) ++ ("\"")

/-- JSON representation of a numeric value. -/
def jsonNumberRepr (q : Rat) : String :=
  if q.den = 1 then toString q.num else toString q.num ++ ("/") ++ toString q.den

mutual

/-- Model of Go `json.Marshal`: total encoder on `GoValue`, failing exactly on
values containing `chan`. -/
def jsonMarshal : GoValue → Except String String
  | GoValue.null => Except.ok ("null")
  | GoValue.bool b => Except.ok (if b then ("true") else ("false"))
  | GoValue.num q => Except.ok (jsonNumberRepr q)
  | GoValue.str s => Except.ok (quoteString s)
  | GoValue.arr elems =>
      match jsonMarshalList elems with
      | Except.error e => Except.error e
      | Except.ok parts => Except.ok (("[") ++ String.intercalate (",") parts ++ ("]"))
  | GoValue.obj fields =>
      match jsonMarshalFields fields with
      | Except.error e => Except.error e
      | Except.ok parts => Except.ok (("\x7b") ++ String.intercalate (",") parts ++ ("\x7d"))
  | GoValue.chan => Except.error ("json: unsupported type: chan")

/-- Encode the elements of a JSON array. -/
def jsonMarshalList : List GoValue → Except String (List String)
  | [] => Except.ok []
  | v :: vs =>
      match jsonMarshal v with
      | Except.error e => Except.error e
      | Except.ok s =>
          match jsonMarshalList vs with
          | Except.error e => Except.error e
          | Except.ok ss => Except.ok (s :: ss)

/-- Encode the fields of a JSON object. -/
def jsonMarshalFields : List (String × GoValue) → Except String (List String)
  | [] => Except.ok []
  | f :: fs =>
      match jsonMarshal f.2 with
      | Except.error e => Except.error e
      | Except.ok s =>
          match jsonMarshalFields fs with
          | Except.error e => Except.error e
          | Except.ok ss => Except.ok ((quoteString f.1 ++ (":") ++ s) :: ss)

end

/-- Source `safeSerialize` (internal/telemetry/telemetry.go): marshal, degrade
to the sentinel on error. -/
def safeSerialize (obj : GoValue) : String :=
  match jsonMarshal obj with
  | Except.error _ => ("<not serializable>")
  | Except.ok dump => dump

/-- Go `map[string]α` assignment `m[k] = v`: replaces the unique binding of `k`
if present, otherwise adds one. -/
def mapSet {α : Type} : List (String × α) → String → α → List (String × α)
  | [], k, v => [(k, v)]
  | p :: rest, k, v => if p.1 = k then (k, v) :: rest else p :: mapSet rest k v

/-- Go `map[string]α` lookup `m[k]` together with its `ok` flag. -/
def mapGet {α : Type} : List (String × α) → String → Option α
  | [], _ => none
  | p :: rest, k => if p.1 = k then some p.2 else mapGet rest k

theorem mapGet_mapSet_self {α : Type} (m : List (String × α)) (k : String) (v : α) :
    mapGet (mapSet m k v) k = some v := by
  induction m with
  | nil => simp [mapSet, mapGet]
  | cons p rest ih =>
      by_cases h : p.1 = k
      · simp [mapSet, h, mapGet]
      · simp [mapSet, h, mapGet, ih]

theorem mapGet_mapSet_ne {α : Type} (m : List (String × α)) (k q : String) (v : α)
    (h : q ≠ k) : mapGet (mapSet m k v) q = mapGet m q := by
  induction m with
  | nil => simp [mapSet, mapGet, Ne.symm h]
  | cons p rest ih =>
      by_cases hp : p.1 = k
      · have hq : p.1 ≠ q := by
          intro hc
          exact h (by rw [← hc, hp])
        simp [mapSet, hp, mapGet, Ne.symm h, hq]
      · by_cases hq : p.1 = q
        · simp [mapSet, hp, mapGet, hq, h]
        · simp [mapSet, hp, mapGet, hq, h, ih]

/-- Value of an OpenTelemetry attribute as set by the annotators
(`attribute.String`, `attribute.Float64`, `attribute.Int`); Go float64 payloads
are modelled as rationals (no float arithmetic occurs in the source). -/
inductive AttrValue : Type
  | str (s : String) : AttrValue
  | float (q : Rat) : AttrValue
  | int (n : Int) : AttrValue
deriving DecidableEq

/-- Model of an OpenTelemetry span under construction: the attributes set on it
(in order) and whether `End` was called. -/
structure Span : Type where
  attrs : List (String × AttrValue)
  ended : Bool
deriving DecidableEq

/-- `span.SetAttributes(kvs...)` appends the key/values to the span. -/
def Span.setAttributes (s : Span) (kvs : List (String × AttrValue)) : Span :=
  { s with attrs := s.attrs ++ kvs }

/-- `span.End()`. -/
def Span.endSpan (s : Span) : Span :=
  { s with ended := true }

/-- genai.FunctionCall (only the field the repository reads). -/
structure FunctionCall : Type where
  name : String
deriving DecidableEq

/-- genai.FunctionResponse: `ID`, `Name`, and the nilable `Response` map. -/
structure FunctionResponse : Type where
  id : String
  name : String
  response : Option GoValue

/-- genai.Part with the nilable pointer fields the repository reads;
`inlineData` carries the blob payload of `InlineData`. -/
structure Part : Type where
  functionCall : Option FunctionCall
  functionResponse : Option FunctionResponse
  inlineData : Option String

/-- genai.Content. A Go nil `Parts` slice and an empty slice behave identically
in every reading of this repository, so parts is a plain list. -/
structure Content : Type where
  role : String
  parts : List Part

/-- model.LLMResponse (the field the repository reads; `content` is a nilable
pointer). -/
structure LLMResponse : Type where
  content : Option Content

/-- session.Event: the fields the repository reads. `llmResponse` is the
embedded nilable `*model.LLMResponse`. -/
structure Event : Type where
  id : String
  invocationID : String
  author : String
  llmResponse : Option LLMResponse

/-- tool.Tool (the two accessors the repository calls). -/
structure Tool : Type where
  name : String
  description : String

/-- genai.GenerateContentConfig: nilable `TopP` and `MaxOutputTokens`
(zero means unset). -/
structure GenerateConfig : Type where
  topP : Option Rat
  maxOutputTokens : Int

/-- model.LLMRequest: the fields the repository reads. -/
structure LLMRequest : Type where
  model : String
  config : GenerateConfig
  contents : List Content

/-- agent.InvocationContext: only `Session().ID()` is read. -/
structure InvocationContext : Type where
  sessionID : String

/-- Marshalling view of a FunctionCall (model of Go struct reflection). -/
def functionCallToGoValue (fc : FunctionCall) : GoValue :=
  GoValue.obj [(("name"), GoValue.str fc.name)]

/-- Marshalling view of a FunctionResponse. -/
def functionResponseToGoValue (fr : FunctionResponse) : GoValue :=
  GoValue.obj [(("id"), GoValue.str fr.id), (("name"), GoValue.str fr.name),
    (("response"), fr.response.getD GoValue.null)]

/-- Marshalling view of a Part. -/
def partToGoValue (p : Part) : GoValue :=
  GoValue.obj [(("functionCall"), (p.functionCall.map functionCallToGoValue).getD GoValue.null),
    (("functionResponse"), (p.functionResponse.map functionResponseToGoValue).getD GoValue.null),
    (("inlineData"), (p.inlineData.map GoValue.str).getD GoValue.null)]

/-- Marshalling view of a Content. -/
def contentToGoValue (c : Content) : GoValue :=
  GoValue.obj [(("role"), GoValue.str c.role), (("parts"), GoValue.arr (c.parts.map partToGoValue))]

/-- Marshalling view of an LLMResponse. -/
def llmResponseToGoValue (r : LLMResponse) : GoValue :=
  GoValue.obj [(("content"), (r.content.map contentToGoValue).getD GoValue.null)]

/-- Marshalling view of a session.Event. -/
def eventToGoValue (e : Event) : GoValue :=
  GoValue.obj [(("id"), GoValue.str e.id), (("invocationId"), GoValue.str e.invocationID),
    (("author"), GoValue.str e.author),
    (("llmResponse"), (e.llmResponse.map llmResponseToGoValue).getD GoValue.null)]

/-- Marshalling view of a GenerateConfig. -/
def generateConfigToGoValue (c : GenerateConfig) : GoValue :=
  GoValue.obj [(("topP"), (c.topP.map GoValue.num).getD GoValue.null),
    (("maxOutputTokens"), GoValue.num (c.maxOutputTokens : Rat))]

/-- Source constants of internal/telemetry/telemetry.go. -/
def systemName : String := "gcp.vertex.agent"

def genAiOperationName : String := "gen_ai.operation.name"

def genAiToolDescription : String := "gen_ai.tool.description"

def genAiToolName : String := "gen_ai.tool.name"

def genAiToolCallID : String := "gen_ai.tool.call.id"

/-- Source `llmRequestToTrace`: the map handed to `safeSerialize`, with the
`InlineData` parts of each content filtered out. -/
def llmRequestToTrace (llmRequest : LLMRequest) : GoValue :=
  GoValue.obj [(("config"), generateConfigToGoValue llmRequest.config),
    (("model"), GoValue.str llmRequest.model),
    (("content"), GoValue.arr (llmRequest.contents.map (fun content =>
      contentToGoValue { role := content.role,
                         parts := content.parts.filter (fun part => part.inlineData.isNone) })))]

/-- Annotate every span in the list with `f`, propagating a Go panic (`none`)
from the first span it strikes. -/
def annotateAll (f : Span → Option Span) : List Span → Option (List Span)
  | [] => some []
  | s :: rest =>
      match f s with
      | none => none
      | some s2 =>
          match annotateAll f rest with
          | none => none
          | some rest2 => some (s2 :: rest2)

/-- The attribute list built in the loop body of source `TraceMergedToolCalls`
(note: the source sets `gcp.vertex.agent.llm_request` twice and never sets
`gcp.vertex.agent.llm_response`). -/
def mergedToolCallAttributes (fnResponseEvent : Event) : List (String × AttrValue) :=
  [(genAiOperationName, AttrValue.str ("execute_tool")),
   (genAiToolName, AttrValue.str ("(merged tools)")),
   (genAiToolDescription, AttrValue.str ("(merged tools)")),
   (("gcp.vertex.agent.llm_request"), AttrValue.str ("\x7b\x7d")),
   (("gcp.vertex.agent.llm_request"), AttrValue.str ("\x7b\x7d")),
   (("gcp.vertex.agent.tool_call_args"), AttrValue.str ("N/A")),
   (("gcp.vertex.agent.event_id"), AttrValue.str fnResponseEvent.id),
   (("gcp.vertex.agent.tool_response"), AttrValue.str (safeSerialize (eventToGoValue fnResponseEvent)))]

/-- Source `TraceMergedToolCalls`: early return on nil event, else annotate and
close every span. -/
def TraceMergedToolCalls (spans : List Span) (fnResponseEvent : Option Event) : List Span :=
  match fnResponseEvent with
  | none => spans
  | some ev => spans.map (fun span => (span.setAttributes (mergedToolCallAttributes ev)).endSpan)


/-- The fixed leading attribute list of source `TraceToolCall` (note: the
source sets `gcp.vertex.agent.llm_request` twice here as well). -/
def toolCallBaseAttributes (tl : Tool) (fnArgs : List (String × GoValue)) (ev : Event) :
    List (String × AttrValue) :=
  [(genAiOperationName, AttrValue.str ("execute_tool")),
   (genAiToolName, AttrValue.str tl.name),
   (genAiToolDescription, AttrValue.str tl.description),
   (("gcp.vertex.agent.llm_request"), AttrValue.str ("\x7b\x7d")),
   (("gcp.vertex.agent.llm_request"), AttrValue.str ("\x7b\x7d")),
   (("gcp.vertex.agent.tool_call_args"), AttrValue.str (safeSerialize (GoValue.obj fnArgs))),
   (("gcp.vertex.agent.event_id"), AttrValue.str ev.id)]

/-- The `toolCallID` / `toolResponse` pair computed by source `TraceToolCall`
from the (already dereferenced) response parts: defaults are the sentinel, the
first part's function response supplies the id (when non-empty) and the
serialized response (when non-nil). -/
def toolCallIDAndResponse (responseParts : List Part) : String × String :=
  match responseParts.head? with
  | none => (("<not specified>"), ("<not specified>"))
  | some part =>
      match part.functionResponse with
      | none => (("<not specified>"), ("<not specified>"))
      | some functionResponse =>
          ((if functionResponse.id = ("") then ("<not specified>") else functionResponse.id),
           (match functionResponse.response with
            | none => ("<not specified>")
            | some resp => safeSerialize resp))

/-- Full attribute list source `TraceToolCall` sets on each span. -/
def toolCallAttributes (tl : Tool) (fnArgs : List (String × GoValue)) (ev : Event)
    (responseParts : List Part) : List (String × AttrValue) :=
  toolCallBaseAttributes tl fnArgs ev
    ++ [(genAiToolCallID, AttrValue.str (toolCallIDAndResponse responseParts).1),
        (("gcp.vertex.agent.tool_response"), AttrValue.str (toolCallIDAndResponse responseParts).2)]

/-- Source `TraceToolCall`: early return on nil event; otherwise, per span, it
dereferences `fnResponseEvent.LLMResponse.Content` (Go panic — `none` — when
either pointer is nil), then annotates and closes the span. -/
def TraceToolCall (spans : List Span) (tl : Tool) (fnArgs : List (String × GoValue))
    (fnResponseEvent : Option Event) : Option (List Span) :=
  match fnResponseEvent with
  | none => some spans
  | some ev =>
      annotateAll (fun span =>
        match ev.llmResponse with
        | none => none
        | some llmResp =>
            match llmResp.content with
            | none => none
            | some content =>
                some ((span.setAttributes (toolCallAttributes tl fnArgs ev content.parts)).endSpan)) spans

/-- Attribute list source `TraceLLMCall` sets on each span (given an already
dereferenced event). -/
def llmCallAttributes (agentCtx : InvocationContext) (llmRequest : LLMRequest) (event : Event) :
    List (String × AttrValue) :=
  let base :=
    [(("gen_ai.system"), AttrValue.str systemName),
     (("gen_ai.request.model"), AttrValue.str llmRequest.model),
     (("gcp.vertex.agent.invocation_id"), AttrValue.str event.invocationID),
     (("gcp.vertex.agent.session_id"), AttrValue.str agentCtx.sessionID),
     (("gcp.vertex.agent.event_id"), AttrValue.str event.id),
     (("gcp.vertex.agent.llm_request"), AttrValue.str (safeSerialize (llmRequestToTrace llmRequest))),
     (("gcp.vertex.agent.llm_response"),
       AttrValue.str (safeSerialize ((event.llmResponse.map llmResponseToGoValue).getD GoValue.null)))]
  let withTopP :=
    match llmRequest.config.topP with
    | some p => base ++ [(("gen_ai.request.top_p"), AttrValue.float p)]
    | none => base
  if llmRequest.config.maxOutputTokens ≠ 0 then
    withTopP ++ [(("gen_ai.request.max_tokens"), AttrValue.int llmRequest.config.maxOutputTokens)]
  else withTopP

/-- Source `TraceLLMCall`: NO nil guard on the event — per span it builds the
attribute list by dereferencing `event` (Go panic — `none` — when nil), then
annotates and closes the span. -/
def TraceLLMCall (spans : List Span) (agentCtx : InvocationContext) (llmRequest : LLMRequest)
    (event : Option Event) : Option (List Span) :=
  annotateAll (fun span =>
    event.map (fun ev => (span.setAttributes (llmCallAttributes agentCtx llmRequest ev)).endSpan)) spans


/-- Sequential state of the process-wide span registry
(internal/telemetry/telemetry.go): the processor list of `localTracerConfig`,
whether the `once` guard has fired, and the processors attached to the local
tracer provider. Processors are opaque capabilities of type `α`. -/
structure RegistryState (α : Type) : Type where
  registered : List α
  initialized : Bool
  attached : List α
deriving DecidableEq

/-- Process start: empty processor list, `once` not fired, no provider. -/
def initialRegistry (α : Type) : RegistryState α :=
  { registered := [], initialized := false, attached := [] }

/-- Source `AddSpanProcessor`: append to `localTracerConfig.spanProcessors`. -/
def AddSpanProcessor {α : Type} (s : RegistryState α) (p : α) : RegistryState α :=
  { s with registered := s.registered ++ [p] }

/-- Source `RegisterTelemetry`: under `once.Do`, create the provider, register
every currently registered processor in order, publish the provider. -/
def RegisterTelemetry {α : Type} (s : RegistryState α) : RegistryState α :=
  if s.initialized then s
  else { s with initialized := true, attached := s.registered }

/-- Source `getTracers`: lazily initialize the local tracer on first use. -/
def getTracers {α : Type} (s : RegistryState α) : RegistryState α :=
  if s.initialized then s else RegisterTelemetry s

/-- One externally visible registry operation: register a processor, or emit a
trace (`StartTrace` → `getTracers`). -/
inductive RegistryOp (α : Type) : Type
  | add (p : α) : RegistryOp α
  | trace : RegistryOp α
deriving DecidableEq

/-- Run one registry operation. -/
def registryStep {α : Type} (s : RegistryState α) : RegistryOp α → RegistryState α
  | RegistryOp.add p => AddSpanProcessor s p
  | RegistryOp.trace => getTracers s

/-- Run a sequence of registry operations from a given state. -/
def runOps {α : Type} (s : RegistryState α) (ops : List (RegistryOp α)) : RegistryState α :=
  ops.foldl registryStep s

/-- Spec-side reading of P1: the processors registered strictly before the
first trace call, in registration order. -/
def addsBeforeFirstTrace {α : Type} : List (RegistryOp α) → List α
  | [] => []
  | RegistryOp.add p :: rest => p :: addsBeforeFirstTrace rest
  | RegistryOp.trace :: _ => []

/-- Source `functionalCalls` (debug.go): nil guards, then the function calls
of the event's parts in order. -/
def functionalCalls (event : Event) : List FunctionCall :=
  match event.llmResponse with
  | none => []
  | some r =>
      match r.content with
      | none => []
      | some c => c.parts.filterMap (fun part => part.functionCall)

/-- Source `functionalResponses` (debug.go). -/
def functionalResponses (event : Event) : List FunctionResponse :=
  match event.llmResponse with
  | none => []
  | some r =>
      match r.content with
      | none => []
      | some c => c.parts.filterMap (fun part => part.functionResponse)

/-- The highlighted-pairs computation of source `EventGraph` (debug.go): calls
first, else responses, else the self pair; empty names filtered inside each
branch. -/
def highlightedPairs (event : Event) : List (String × String) :=
  let fc := functionalCalls event
  let fr := functionalResponses event
  if fc.length > 0 then
    (fc.filter (fun f => f.name != (""))).map (fun f => (f.name, event.author))
  else if fr.length > 0 then
    (fr.filter (fun f => f.name != (""))).map (fun f => (f.name, event.author))
  else
    [(event.author, event.author)]


/-- A span as read by the exporter (`sdktrace.ReadOnlySpan`): its name, its
attribute key/values (values already rendered as by `Value.AsString`), and its
trace/span identifiers. -/
structure ReadOnlySpan : Type where
  name : String
  attributes : List (String × String)
  traceID : String
  spanID : String
deriving DecidableEq

/-- One stored attribute map (`map[string]string`). -/
abbrev AttrMap : Type := List (String × String)

/-- The exporter's `traceDict` (`map[string]map[string]string`). -/
abbrev TraceStore : Type := List (String × AttrMap)

/-- The event-id attribute key used by the exporter. -/
def eventIDKey : String := "gcp.vertex.agent.event_id"

/-- The name filter of source `ExportSpans`; `strings.HasPrefix` is modelled
on the character lists (kernel-reducible, same meaning). -/
def relevantSpan (span : ReadOnlySpan) : Bool :=
  span.name == ("call_llm") || span.name == ("send_data")
    || List.isPrefixOf (("execute_tool").data) span.name.data

/-- The flat attribute map source `ExportSpans` builds for one span: every span
attribute, then `trace_id` and `span_id`. -/
def spanAttributesMap (span : ReadOnlySpan) : AttrMap :=
  mapSet (mapSet (span.attributes.foldl (fun m kv => mapSet m kv.1 kv.2) [])
    (("trace_id")) span.traceID) (("span_id")) span.spanID

/-- Loop body of source `ExportSpans`: for a relevant span, build its
attribute map and, when it carries the event-id key, store it at that event id
(overwriting). -/
def exportSpanStep (st : TraceStore) (span : ReadOnlySpan) : TraceStore :=
  if relevantSpan span then
    let attrMap := spanAttributesMap span
    match mapGet attrMap eventIDKey with
    | some eventID => mapSet st eventID attrMap
    | none => st
  else st

/-- Source `APIServerSpanExporter.ExportSpans`: the loop over the batch. -/
def ExportSpans (store : TraceStore) (spans : List ReadOnlySpan) : TraceStore :=
  spans.foldl exportSpanStep store

/-- A whole lifetime of export batches, starting from `NewAPIServerSpanExporter`'s
empty `traceDict`. -/
def exportBatches (store : TraceStore) (batches : List (List ReadOnlySpan)) : TraceStore :=
  batches.foldl ExportSpans store

/-- Outcome of an HTTP debug handler, as far as status and JSON body go. -/
inductive HTTPResponse : Type
  | ok (body : AttrMap) : HTTPResponse
  | badRequest (msg : String) : HTTPResponse
  | notFound (msg : String) : HTTPResponse
deriving DecidableEq

/-- Source `TraceDict` handler (debug.go): 400 on empty `event_id` (a missing
mux variable reads as the empty string), 404 when the id is not a key of the
trace store, else 200 with the stored attribute map. -/
def TraceDict (store : TraceStore) (eventID : String) : HTTPResponse :=
  if eventID = ("") then HTTPResponse.badRequest ("event_id parameter is required")
  else
    match mapGet store eventID with
    | none => HTTPResponse.notFound (("event not found: ") ++ eventID)
    | some eventDict => HTTPResponse.ok eventDict


/-- Concrete inputs used by the C1 counterexample. -/
def spanC1 : Span := { attrs := [], ended := false }

def ictxC1 : InvocationContext := { sessionID := ("sess") }

def reqC1 : LLMRequest :=
  { model := ("gemini"), config := { topP := none, maxOutputTokens := 0 }, contents := [] }

/-- C1: the claim states that all three annotators are no-ops on a nil result
event. It is false for `TraceLLMCall`, which has no nil guard: at this concrete
input (one fresh span, nil event) the call does not return the spans untouched
— it panics on the event dereference. -/
theorem claim_C1_counterexample :
    ¬ (TraceLLMCall [spanC1] ictxC1 reqC1 none = some [spanC1]) := by
  decide

/-- C1 (amended): `TraceToolCall` and `TraceMergedToolCalls` are no-ops on a
nil result event (no attribute attached, no span closed); `TraceLLMCall` has no
nil guard — with an empty span list it returns without effect, and with any
non-empty span list and a nil event it panics (attaching and closing nothing,
and never returning normally). -/
theorem claim_C1_amended (spans : List Span) (tl : Tool) (fnArgs : List (String × GoValue))
    (agentCtx : InvocationContext) (llmRequest : LLMRequest) (s : Span) (rest : List Span) :
    TraceToolCall spans tl fnArgs none = some spans ∧
    TraceMergedToolCalls spans none = spans ∧
    TraceLLMCall [] agentCtx llmRequest none = some [] ∧
    TraceLLMCall (s :: rest) agentCtx llmRequest none = none :=
  ⟨rfl, rfl, rfl, rfl⟩

/-- C9: `safeSerialize` is total on the marshalling domain and never propagates
a failure: it returns the JSON encoding whenever `json.Marshal` succeeds and
the sentinel `<not serializable>` whenever it fails. -/
theorem claim_C9 (v : GoValue) :
    (∀ s, jsonMarshal v = Except.ok s → safeSerialize v = s) ∧
    (∀ e, jsonMarshal v = Except.error e → safeSerialize v = ("<not serializable>")) := by
  constructor
  · intro s hs
    simp [safeSerialize, hs]
  · intro e he
    simp [safeSerialize, he]

/-- C9 witness: the two branches at concrete values — a string marshals to its
JSON quotation, and a channel degrades to the sentinel. -/
theorem claim_C9_witness :
    safeSerialize (GoValue.str ("a")) = ("\"a\"") ∧
    safeSerialize GoValue.chan = ("<not serializable>") :=
  ⟨(claim_C9 (GoValue.str ("a"))).1 _ rfl, (claim_C9 GoValue.chan).2 _ rfl⟩

/-- C10: for every non-nil merged-tool-response event, `TraceMergedToolCalls`
appends the same attribute list to every span and closes it, and that list
carries `gcp.vertex.agent.llm_request` exactly twice (both `\x7b\x7d`) and
carries no `gcp.vertex.agent.llm_response` key at all. -/
theorem claim_C10 (ev : Event) (spans : List Span) :
    TraceMergedToolCalls spans (some ev) =
      spans.map (fun s => (s.setAttributes (mergedToolCallAttributes ev)).endSpan) ∧
    ((mergedToolCallAttributes ev).filter (fun kv => kv.1 == ("gcp.vertex.agent.llm_request"))).map
        Prod.snd = [AttrValue.str ("\x7b\x7d"), AttrValue.str ("\x7b\x7d")] ∧
    (mergedToolCallAttributes ev).all (fun kv => kv.1 != ("gcp.vertex.agent.llm_response")) = true :=
  ⟨rfl, rfl, rfl⟩


/-- C3: for every event whose parts contain at least one non-empty-named
function call, the correlator returns exactly the pairs
`(call.Name, event.Author)` of the non-empty-named calls, in call order — so N
such calls yield N pairs, and any function responses present contribute
nothing. -/
theorem claim_C3 (event : Event)
    (h : 1 ≤ ((functionalCalls event).filter (fun f => f.name != (""))).length) :
    highlightedPairs event =
      ((functionalCalls event).filter (fun f => f.name != (""))).map
        (fun f => (f.name, event.author)) := by
  have hpos : 0 < (functionalCalls event).length :=
    lt_of_lt_of_le h (List.length_filter_le _ _)
  simp only [highlightedPairs]
  rw [if_pos hpos]

/-- Concrete event for the C3 witness: one function call named `search`, plus a
function response in the same event, author `agent_a`. -/
def eventC3 : Event :=
  ⟨("e1"), ("inv1"), ("agent_a"),
    some ⟨some ⟨("model"),
      [⟨some ⟨("search")⟩, none, none⟩,
       ⟨none, some ⟨("r1"), ("ignored"), none⟩, none⟩]⟩⟩⟩

/-- C3 witness: the spec scenario — the event with `FunctionCall{Name:"search"}`
and author `agent_a` highlights exactly `[("search","agent_a")]`, its function
response contributing nothing. -/
theorem claim_C3_witness : highlightedPairs eventC3 = [(("search"), ("agent_a"))] :=
  (claim_C3 eventC3 Nat.le.refl).trans rfl

/-- C4: for every event with zero function calls, (a) when it has at least one
non-empty-named function response the correlator returns exactly the pairs
`(response.Name, event.Author)` of the non-empty-named responses in response
order, and (b) when it has no responses either it returns exactly the single
self pair `(event.Author, event.Author)`. -/
theorem claim_C4 (event : Event) (hc : functionalCalls event = []) :
    (1 ≤ ((functionalResponses event).filter (fun f => f.name != (""))).length →
      highlightedPairs event =
        ((functionalResponses event).filter (fun f => f.name != (""))).map
          (fun f => (f.name, event.author))) ∧
    (functionalResponses event = [] →
      highlightedPairs event = [(event.author, event.author)]) := by
  constructor
  · intro h
    have hpos : 0 < (functionalResponses event).length :=
      lt_of_lt_of_le h (List.length_filter_le _ _)
    simp only [highlightedPairs, hc]
    rw [if_neg (by simp), if_pos hpos]
  · intro hr
    simp only [highlightedPairs, hc, hr]
    rw [if_neg (by simp), if_neg (by simp)]

/-- Concrete event for the C4 witness, response branch: no calls, responses
named `tool_a` and (empty), author `agent_b`. -/
def eventC4r : Event :=
  ⟨("e2"), ("inv2"), ("agent_b"),
    some ⟨some ⟨("user"),
      [⟨none, some ⟨("p1"), ("tool_a"), none⟩, none⟩,
       ⟨none, some ⟨("p2"), (""), none⟩, none⟩]⟩⟩⟩

/-- Concrete event for the C4 witness, self-pair branch: no calls, no
responses. -/
def eventC4s : Event :=
  ⟨("e3"), ("inv3"), ("agent_c"), none⟩

/-- C4 witness: both branches at concrete events — the response event yields
exactly its one non-empty-named response pair, and the bare event yields its
self pair. -/
theorem claim_C4_witness :
    highlightedPairs eventC4r = [(("tool_a"), ("agent_b"))] ∧
    highlightedPairs eventC4s = [(("agent_c"), ("agent_c"))] :=
  ⟨((claim_C4 eventC4r rfl).1 Nat.le.refl).trans rfl,
   ((claim_C4 eventC4s rfl).2 rfl).trans rfl⟩


theorem runOps_attached_of_initialized {α : Type} (ops : List (RegistryOp α)) :
    ∀ s : RegistryState α, s.initialized = true → (runOps s ops).attached = s.attached := by
  induction ops with
  | nil =>
      intro s h
      rfl
  | cons op rest ih =>
      intro s h
      cases op with
      | add p => exact ih (AddSpanProcessor s p) h
      | trace =>
          have hs : getTracers s = s := by simp [getTracers, h]
          show (runOps (getTracers s) rest).attached = s.attached
          rw [hs]
          exact ih s h

theorem runOps_attached_of_mem_trace {α : Type} (ops : List (RegistryOp α)) :
    ∀ r : List α, RegistryOp.trace ∈ ops →
      (runOps { registered := r, initialized := false, attached := [] } ops).attached
        = r ++ addsBeforeFirstTrace ops := by
  induction ops with
  | nil =>
      intro r h
      simp at h
  | cons op rest ih =>
      intro r h
      cases op with
      | add p =>
          have hmem : RegistryOp.trace ∈ rest := by
            rcases List.mem_cons.mp h with h1 | h2
            · exact absurd h1 (by simp)
            · exact h2
          have step := ih (r ++ [p]) hmem
          exact step.trans (by simp [addsBeforeFirstTrace])
      | trace =>
          have hstep :
              registryStep ({ registered := r, initialized := false, attached := [] } :
                RegistryState α) RegistryOp.trace
              = { registered := r, initialized := true, attached := r } := by
            simp [registryStep, getTracers, RegisterTelemetry]
          show (runOps (registryStep { registered := r, initialized := false, attached := [] }
            RegistryOp.trace) rest).attached = r ++ addsBeforeFirstTrace (RegistryOp.trace :: rest)
          rw [hstep, runOps_attached_of_initialized rest _ rfl]
          simp [addsBeforeFirstTrace]

/-- C2: for every operation sequence containing a first trace call (which
triggers the one-time tracer initialization through `getTracers`), the
processors attached to the local tracer provider are exactly the ones
registered before that first trace, in registration order — in particular any
processor registered after initialization is never attached. -/
theorem claim_C2 {α : Type} (ops : List (RegistryOp α)) (h : RegistryOp.trace ∈ ops) :
    (runOps (initialRegistry α) ops).attached = addsBeforeFirstTrace ops := by
  have base := runOps_attached_of_mem_trace ops [] h
  simpa [initialRegistry] using base

/-- C2 witness: the spec scenario — register processor 1, trace, register
processor 2 afterwards; the attached set is exactly `[1]`. -/
theorem claim_C2_witness :
    (runOps (initialRegistry Nat)
      [RegistryOp.add 1, RegistryOp.trace, RegistryOp.add 2]).attached
      = addsBeforeFirstTrace [RegistryOp.add 1, RegistryOp.trace, RegistryOp.add 2] ∧
    addsBeforeFirstTrace [RegistryOp.add 1, RegistryOp.trace, RegistryOp.add (2 : Nat)] = [1] :=
  ⟨claim_C2 _ (by decide), rfl⟩


theorem mapGet_foldl_mem {α : Type} (l : List (String × α)) :
    ∀ (init : List (String × α)) (k : String) (v : α),
      mapGet (l.foldl (fun m kv => mapSet m kv.1 kv.2) init) k = some v →
      (k, v) ∈ l ∨ mapGet init k = some v := by
  induction l with
  | nil =>
      intro init k v h
      exact Or.inr h
  | cons kv rest ih =>
      intro init k v h
      rcases ih (mapSet init kv.1 kv.2) k v h with h1 | h2
      · exact Or.inl (List.mem_cons_of_mem _ h1)
      · by_cases hk : k = kv.1
        · subst hk
          rw [mapGet_mapSet_self] at h2
          obtain rfl : kv.2 = v := Option.some.inj h2
          exact Or.inl (List.mem_cons_self kv rest)
        · rw [mapGet_mapSet_ne init kv.1 k kv.2 hk] at h2
          exact Or.inr h2

theorem ExportSpans_lookup (spans : List ReadOnlySpan) :
    ∀ (store : TraceStore) (k : String) (m : AttrMap),
      mapGet (ExportSpans store spans) k = some m →
      (∃ span ∈ spans, relevantSpan span = true ∧
        mapGet (spanAttributesMap span) eventIDKey = some k ∧ m = spanAttributesMap span)
      ∨ mapGet store k = some m := by
  induction spans with
  | nil =>
      intro store k m h
      exact Or.inr h
  | cons span rest ih =>
      intro store k m h
      rcases ih (exportSpanStep store span) k m h with h1 | h2
      · obtain ⟨sp, hsp, hx⟩ := h1
        exact Or.inl ⟨sp, List.mem_cons_of_mem _ hsp, hx⟩
      · by_cases hrel : relevantSpan span = true
        · cases hev : mapGet (spanAttributesMap span) eventIDKey with
          | none =>
              have hid : exportSpanStep store span = store := by
                simp [exportSpanStep, hrel, hev]
              rw [hid] at h2
              exact Or.inr h2
          | some eventID =>
              have hstep : exportSpanStep store span
                  = mapSet store eventID (spanAttributesMap span) := by
                simp [exportSpanStep, hrel, hev]
              rw [hstep] at h2
              by_cases hk : k = eventID
              · subst hk
                rw [mapGet_mapSet_self] at h2
                exact Or.inl ⟨span, List.mem_cons_self span rest, hrel, hev,
                  (Option.some.inj h2).symm⟩
              · rw [mapGet_mapSet_ne store eventID k _ hk] at h2
                exact Or.inr h2
        · have hid : exportSpanStep store span = store := by
            simp [exportSpanStep, hrel]
          rw [hid] at h2
          exact Or.inr h2

theorem exportBatches_lookup (batches : List (List ReadOnlySpan)) :
    ∀ (store : TraceStore) (k : String) (m : AttrMap),
      mapGet (exportBatches store batches) k = some m →
      (∃ span ∈ batches.join, relevantSpan span = true ∧
        mapGet (spanAttributesMap span) eventIDKey = some k ∧ m = spanAttributesMap span)
      ∨ mapGet store k = some m := by
  induction batches with
  | nil =>
      intro store k m h
      exact Or.inr h
  | cons batch rest ih =>
      intro store k m h
      rcases ih (ExportSpans store batch) k m h with h1 | h2
      · obtain ⟨sp, hsp, hx⟩ := h1
        exact Or.inl ⟨sp, by simpa using Or.inr (List.mem_join.mp (by simpa using hsp)), hx⟩
      · rcases ExportSpans_lookup batch store k m h2 with h3 | h4
        · obtain ⟨sp, hsp, hx⟩ := h3
          exact Or.inl ⟨sp, by simp [hsp], hx⟩
        · exact Or.inr h4

theorem spanAttributesMap_traceID (span : ReadOnlySpan) :
    mapGet (spanAttributesMap span) (("trace_id")) = some span.traceID := by
  unfold spanAttributesMap
  rw [mapGet_mapSet_ne _ _ _ _ (by decide), mapGet_mapSet_self]

theorem spanAttributesMap_spanID (span : ReadOnlySpan) :
    mapGet (spanAttributesMap span) (("span_id")) = some span.spanID := by
  unfold spanAttributesMap
  rw [mapGet_mapSet_self]

theorem eventID_mem_attributes (span : ReadOnlySpan) (k : String)
    (h : mapGet (spanAttributesMap span) eventIDKey = some k) :
    (eventIDKey, k) ∈ span.attributes := by
  unfold spanAttributesMap at h
  rw [mapGet_mapSet_ne _ _ _ _ (by decide), mapGet_mapSet_ne _ _ _ _ (by decide)] at h
  rcases mapGet_foldl_mem span.attributes [] eventIDKey k h with h1 | h2
  · exact h1
  · simp [mapGet] at h2


/-- C5: after any sequence of export batches starting from the empty store,
every stored entry arose from a batch span whose name passed the
`call_llm`/`send_data`/`execute_tool`-prefixed filter and whose own attributes
carry the event-id key (with the stored key as value); the stored map is that
span's attribute map and always contains `trace_id` and `span_id` — even when
the span carried no domain attributes. -/
theorem claim_C5 (batches : List (List ReadOnlySpan)) (k : String) (m : AttrMap)
    (h : mapGet (exportBatches [] batches) k = some m) :
    ∃ span, span ∈ batches.join ∧ relevantSpan span = true ∧
      (eventIDKey, k) ∈ span.attributes ∧ m = spanAttributesMap span ∧
      mapGet m (("trace_id")) = some span.traceID ∧
      mapGet m (("span_id")) = some span.spanID := by
  rcases exportBatches_lookup batches [] k m h with h1 | h2
  · obtain ⟨span, hmem, hrel, hev, hm⟩ := h1
    refine ⟨span, hmem, hrel, eventID_mem_attributes span k hev, hm, ?_, ?_⟩
    · rw [hm]
      exact spanAttributesMap_traceID span
    · rw [hm]
      exact spanAttributesMap_spanID span
  · simp [mapGet] at h2

/-- Concrete inputs of the C5 witness (the spec scenario: an
`execute_tool_search` span with an event id and one domain attribute). -/
def spanC5 : ReadOnlySpan :=
  ⟨("execute_tool_search"), [(eventIDKey, ("e1")), (("foo"), ("bar"))], ("t1"), ("s1")⟩

/-- The attribute map the C5 scenario stores under `e1`. -/
def mC5 : AttrMap :=
  [(eventIDKey, ("e1")), (("foo"), ("bar")), (("trace_id"), ("t1")), (("span_id"), ("s1"))]

/-- C5 witness: exporting the scenario batch stores exactly `mC5` at `e1`, and
the invariant instantiates there. -/
theorem claim_C5_witness :
    ∃ span, span ∈ [[spanC5]].join ∧ relevantSpan span = true ∧
      (eventIDKey, ("e1")) ∈ span.attributes ∧ mC5 = spanAttributesMap span ∧
      mapGet mC5 (("trace_id")) = some span.traceID ∧
      mapGet mC5 (("span_id")) = some span.spanID :=
  claim_C5 [[spanC5]] ("e1") mC5 (by decide)

/-- C6: for every trace store and every relevant exported span whose attribute
map carries an event id already present as a store key, `ExportSpans` replaces
the stored attribute map at that key entirely with the new span's map —
last-write-wins, nothing of the prior map is merged in. -/
theorem claim_C6 (store : TraceStore) (span : ReadOnlySpan) (k : String)
    (hrel : relevantSpan span = true)
    (hk : mapGet (spanAttributesMap span) eventIDKey = some k)
    (hold : mapGet store k ≠ none) :
    mapGet (ExportSpans store [span]) k = some (spanAttributesMap span) := by
  have hstep : exportSpanStep store span = mapSet store k (spanAttributesMap span) := by
    simp [exportSpanStep, hrel, hk]
  show mapGet (exportSpanStep store span) k = some (spanAttributesMap span)
  rw [hstep]
  exact mapGet_mapSet_self store k (spanAttributesMap span)

/-- Prior store for the C6 witness: `e1` already holds an `old` attribute. -/
def storeC6 : TraceStore := [(("e1"), [(("old"), ("1"))])]

/-- Re-exported span for the C6 witness, reusing event id `e1`. -/
def spanC6 : ReadOnlySpan :=
  ⟨("call_llm"), [(eventIDKey, ("e1")), (("x"), ("2"))], ("t2"), ("s2")⟩

/-- C6 witness: re-exporting under the reused id replaces the stored map with
the new span's map, whose evaluation shows no `old` key survives. -/
theorem claim_C6_witness :
    mapGet (ExportSpans storeC6 [spanC6]) ("e1") = some (spanAttributesMap spanC6) ∧
    spanAttributesMap spanC6
      = [(eventIDKey, ("e1")), (("x"), ("2")), (("trace_id"), ("t2")), (("span_id"), ("s2"))] :=
  ⟨claim_C6 storeC6 spanC6 ("e1") rfl (by decide) (by decide), rfl⟩


/-- Spec-side reading of the claimed tool-call id: the ID of the first
response part's function response, with the sentinel when that response is
absent or its id empty. -/
def claimedToolCallID (parts : List Part) : String :=
  match (parts.head?).bind (fun p => p.functionResponse) with
  | none => ("<not specified>")
  | some fr => if fr.id = ("") then ("<not specified>") else fr.id

/-- Spec-side reading of the claimed tool response: the JSON serialization of
the first response part's function response `Response`, with the sentinel when
absent. -/
def claimedToolResponse (parts : List Part) : String :=
  match ((parts.head?).bind (fun p => p.functionResponse)).bind (fun fr => fr.response) with
  | none => ("<not specified>")
  | some resp => safeSerialize resp

theorem toolCallIDAndResponse_eq_claimed (parts : List Part) :
    toolCallIDAndResponse parts = (claimedToolCallID parts, claimedToolResponse parts) := by
  cases parts with
  | nil => rfl
  | cons p rest =>
      cases hp : p.functionResponse with
      | none => simp [toolCallIDAndResponse, claimedToolCallID, claimedToolResponse, hp]
      | some fr =>
          cases hr : fr.response with
          | none =>
              simp [toolCallIDAndResponse, claimedToolCallID, claimedToolResponse, hp, hr]
          | some resp =>
              simp [toolCallIDAndResponse, claimedToolCallID, claimedToolResponse, hp, hr]

theorem annotateAll_of_some (f : Span → Option Span) (g : Span → Span)
    (hf : ∀ s, f s = some (g s)) : ∀ l : List Span, annotateAll f l = some (l.map g) := by
  intro l
  induction l with
  | nil => rfl
  | cons a rest ih => simp [annotateAll, hf a, ih]

/-- Concrete inputs of the C7 counterexample: a non-nil result event whose
`LLMResponse` pointer is nil. -/
def evC7bad : Event := ⟨("e1"), ("inv"), ("a"), none⟩

/-- Tool descriptor for the C7 theorems. -/
def toolC7 : Tool := ⟨("search"), ("a search tool")⟩

/-- Fresh span for the C7 theorems. -/
def spanC7 : Span := ⟨[], false⟩

/-- C7: the claim quantifies over every non-nil result event, but
`TraceToolCall` dereferences `fnResponseEvent.LLMResponse.Content` without nil
guards: at this concrete non-nil event with a nil `LLMResponse` the call
panics and no span with the claimed sentinel attribute is ever produced. -/
theorem claim_C7_counterexample :
    ¬ (∃ out, TraceToolCall [spanC7] toolC7 [] (some evC7bad) = some out ∧
        ∀ s ∈ out, (genAiToolCallID, AttrValue.str ("<not specified>")) ∈ s.attrs) := by
  intro h
  obtain ⟨out, hout, _⟩ := h
  have hnone : TraceToolCall [spanC7] toolC7 [] (some evC7bad) = none := rfl
  rw [hnone] at hout
  exact Option.noConfusion hout

/-- C7 (amended): for every non-nil result event whose `LLMResponse` and
`Content` are non-nil, `TraceToolCall` closes every span and attaches to it
`gen_ai.tool.call.id` taken from the ID of the first response part's function
response (sentinel `<not specified>` when absent or empty) and
`gcp.vertex.agent.tool_response` as the JSON serialization of that function
response's `Response` (same sentinel when absent); when `LLMResponse` or
`Content` is nil the call panics and attaches nothing. -/
theorem claim_C7 (spans : List Span) (tl : Tool) (fnArgs : List (String × GoValue))
    (ev : Event) (r : LLMResponse) (c : Content)
    (hr : ev.llmResponse = some r) (hc : r.content = some c) :
    ∃ out, TraceToolCall spans tl fnArgs (some ev) = some out ∧
      out.length = spans.length ∧
      ∀ s ∈ out, s.ended = true ∧
        (genAiToolCallID, AttrValue.str (claimedToolCallID c.parts)) ∈ s.attrs ∧
        (("gcp.vertex.agent.tool_response"),
          AttrValue.str (claimedToolResponse c.parts)) ∈ s.attrs := by
  refine ⟨spans.map (fun span =>
    (span.setAttributes (toolCallAttributes tl fnArgs ev c.parts)).endSpan), ?_, by simp, ?_⟩
  · show annotateAll _ spans = _
    refine annotateAll_of_some _ _ (fun s => ?_) spans
    simp [hr, hc]
  · intro s hs
    rw [List.mem_map] at hs
    obtain ⟨s0, _, rfl⟩ := hs
    refine ⟨rfl, ?_, ?_⟩
    · simp [Span.setAttributes, Span.endSpan, toolCallAttributes,
        toolCallIDAndResponse_eq_claimed]
    · simp [Span.setAttributes, Span.endSpan, toolCallAttributes,
        toolCallIDAndResponse_eq_claimed]


/-- Content for the C7 witness: one part with a function response carrying an
id and a response map. -/
def cC7 : Content :=
  ⟨("tool"), [⟨none, some ⟨("call-1"), ("search"), some (GoValue.obj [(("ok"), GoValue.bool true)])⟩, none⟩]⟩

/-- LLMResponse wrapper of the C7 witness content. -/
def rC7 : LLMResponse := ⟨some cC7⟩

/-- Event of the C7 witness. -/
def evC7 : Event := ⟨("e9"), ("inv9"), ("agent"), some rC7⟩

/-- C7 witness: at the concrete event the amended theorem instantiates, and
the first response part's id `call-1` (non-empty) is indeed what the claimed
tool-call id evaluates to. -/
theorem claim_C7_witness :
    (∃ out, TraceToolCall [spanC7] toolC7 [] (some evC7) = some out ∧
      out.length = [spanC7].length ∧
      ∀ s ∈ out, s.ended = true ∧
        (genAiToolCallID, AttrValue.str (claimedToolCallID cC7.parts)) ∈ s.attrs ∧
        (("gcp.vertex.agent.tool_response"),
          AttrValue.str (claimedToolResponse cC7.parts)) ∈ s.attrs) ∧
    claimedToolCallID cC7.parts = ("call-1") :=
  ⟨claim_C7 [spanC7] toolC7 [] evC7 rC7 cC7 rfl rfl, rfl⟩

/-- C8: the `TraceDict` handler returns 400 with `event_id parameter is
required` on an empty event id, 404 (`event not found: <id>`) when a non-empty
id is absent from the trace store, and 200 with the stored attribute map when
the (non-empty) id is present. -/
theorem claim_C8 (store : TraceStore) (eventID : String) :
    (eventID = ("") →
      TraceDict store eventID = HTTPResponse.badRequest ("event_id parameter is required")) ∧
    (eventID ≠ ("") → mapGet store eventID = none →
      TraceDict store eventID = HTTPResponse.notFound (("event not found: ") ++ eventID)) ∧
    (∀ m, eventID ≠ ("") → mapGet store eventID = some m →
      TraceDict store eventID = HTTPResponse.ok m) := by
  refine ⟨?_, ?_, ?_⟩
  · intro h
    simp [TraceDict, h]
  · intro h hnone
    simp [TraceDict, h, hnone]
  · intro m h hsome
    simp [TraceDict, h, hsome]

/-- Trace store of the C8 witness. -/
def storeC8 : TraceStore := [(("e1"), [(("foo"), ("bar"))])]

/-- C8 witness: the three branches at concrete requests against `storeC8` —
the spec scenario 400 on empty id, 404 on the unknown `e2`, 200 with the
stored map on `e1`. -/
theorem claim_C8_witness :
    TraceDict storeC8 ("") = HTTPResponse.badRequest ("event_id parameter is required") ∧
    TraceDict storeC8 ("e2") = HTTPResponse.notFound ("event not found: e2") ∧
    TraceDict storeC8 ("e1") = HTTPResponse.ok [(("foo"), ("bar"))] :=
  ⟨(claim_C8 storeC8 ("")).1 rfl,
   (claim_C8 storeC8 ("e2")).2.1 (by decide) rfl,
   (claim_C8 storeC8 ("e1")).2.2 [(("foo"), ("bar"))] (by decide) rfl⟩

end Adk
